import Mathlib

/-!
Shallow embedding of the inventory HTTP service in `src/server.js`.

The service keeps an in-memory array `inventory` of items, a counter
`nextId`, and a cache directory of photo files.  Each Express route
handler is translated as a pure function from the store state (and the
request data) to a new state and a response.  The multer upload
middleware, which runs before the handler bodies and writes the uploaded
file to the cache directory when the declared mimetype starts with
"image/", is modelled by `multerSingle`.
-/

namespace Inventory

/-- One inventory record, mirroring the object literal built in
`app.post('/register')`: `photo` is the stored filename (JS `null` mapped
to `none`), `photo_url` the derived URL. -/
structure Item where
  id : Nat
  inventory_name : String
  description : String
  photo : Option String
  photo_url : Option String
deriving Repr, DecidableEq

/-- The cache directory contents: an association list from filename to
file content (most recent write first). -/
abbrev FS := List (String × String)

/-- `fs.existsSync` on a cache path. -/
def FS.fexists (fs : FS) (name : String) : Bool :=
  fs.any (fun e => e.1 == name)

/-- Reading a file's content (used to model `res.sendFile`). -/
def FS.fread (fs : FS) (name : String) : Option String :=
  (fs.find? (fun e => e.1 == name)).map (fun e => e.2)

/-- A file write by multer's disk storage. -/
def FS.fwrite (fs : FS) (name content : String) : FS :=
  (name, content) :: fs

/-- `fs.unlinkSync`. -/
def FS.funlink (fs : FS) (name : String) : FS :=
  fs.filter (fun e => e.1 != name)

/-- The mutable server state: the `inventory` array, the `nextId`
counter and the cache directory contents. -/
structure Store where
  inventory : List Item
  nextId : Nat
  cache : FS
deriving Repr, DecidableEq

/-- The state at process start: empty collection, counter at 1, empty
cache directory. -/
def initStore : Store := { inventory := [], nextId := 1, cache := [] }

/-- An uploaded multipart file part: declared media type and raw bytes. -/
structure Upload where
  mimetype : String
  content : String
deriving Repr, DecidableEq

/-- An HTTP response: status plus body, with the JSON bodies the
handlers produce distinguished by shape.  `errorJson` carries the
human-readable `error` message, `fileBody` the bytes served by
`res.sendFile`. -/
inductive Resp where
  | itemJson (status : Nat) (it : Item)
  | listJson (its : List Item)
  | errorJson (status : Nat) (msg : String)
  | fileBody (content : String)
  | msgJson (msg : String)
deriving Repr, DecidableEq

/-- Status code of a response (`res.json` without `res.status` is 200). -/
def Resp.status : Resp → Nat
  | .itemJson s _ => s
  | .listJson _ => 200
  | .errorJson s _ => s
  | .fileBody _ => 200
  | .msgJson _ => 200

/-- JavaScript `String.prototype.trim`: the string with whitespace
stripped from both ends (stated on the character list so that it
computes by structural recursion). -/
def trimJS (s : String) : String :=
  ⟨((s.toList.dropWhile Char.isWhitespace).reverse.dropWhile
      Char.isWhitespace).reverse⟩

/-- JavaScript `String.prototype.startsWith`: prefix test on the
character lists. -/
def startsWithJS (s pat : String) : Bool :=
  pat.toList.isPrefixOf s.toList

/-- JavaScript `parseInt` restricted to base 10: skip leading
whitespace, optional sign, then the longest prefix of decimal digits;
`none` models `NaN` (no digits). -/
def parseIntJS (s : String) : Option Int :=
  let t := s.toList.dropWhile Char.isWhitespace
  let signed : Int × List Char :=
    match t with
    | '-' :: r => (-1, r)
    | '+' :: r => (1, r)
    | r => (1, r)
  let digits := signed.2.takeWhile (fun c => c.isDigit)
  if digits.isEmpty then none
  else some (signed.1 * (Int.ofNat
    (digits.foldl (fun acc c => acc * 10 + (c.toNat - '0'.toNat)) 0)))

/-- `const findItem = (id) => inventory.find(i => i.id === parseInt(id))`.
A `NaN` result of `parseInt` (`none`) compares unequal to every id. -/
def findItem (inv : List Item) (idStr : String) : Option Item :=
  inv.find? (fun i => parseIntJS idStr == some (Int.ofNat i.id))

/-- `findItemIndex`, with JS `-1` mapped to `none`. -/
def findItemIndex (inv : List Item) (idStr : String) : Option Nat :=
  inv.findIdx? (fun i => parseIntJS idStr == some (Int.ofNat i.id))

/-- The multer middleware `upload.single('photo')` for one request: when
a photo part is present and its mimetype starts with `image/`, the file
is written to the cache directory under the generated filename and
`req.file` is set; otherwise (`fileFilter` answers `cb(null, false)`)
the part is silently skipped and `req.file` stays undefined.  The
generated `Date.now()-random` filename is a parameter. -/
def multerSingle (cache : FS) (photo : Option Upload) (genName : String) :
    FS × Option String :=
  match photo with
  | none => (cache, none)
  | some u =>
    if startsWithJS u.mimetype "image/" then
      (cache.fwrite genName u.content, some genName)
    else
      (cache, none)

/-- Body of a `POST /register` request. -/
structure RegisterReq where
  inventory_name : Option String
  description : Option String
  photo : Option Upload
deriving Repr, DecidableEq

/-- JS truthiness of an optional string: `undefined` and `""` are
falsy. -/
def truthy : Option String → Bool
  | none => false
  | some s => s != ""

/-- `app.post('/register', upload.single('photo'), ...)`: multer first
writes any image upload, then the handler rejects a missing or
whitespace-only `inventory_name` with 400, else builds the item with
the trimmed name, pushes it and bumps `nextId`. -/
def postRegister (st : Store) (req : RegisterReq) (genName : String) :
    Store × Resp :=
  let m := multerSingle st.cache req.photo genName
  let st1 := { st with cache := m.1 }
  if !(truthy req.inventory_name) ||
      !(truthy (req.inventory_name.map (fun s => trimJS s))) then
    (st1, .errorJson 400 "Inventory name is required")
  else
    let name := trimJS (req.inventory_name.getD "")
    let item : Item :=
      { id := st.nextId
        inventory_name := name
        description := if truthy req.description then req.description.getD "" else ""
        photo := m.2
        photo_url := m.2.map (fun _ => "/inventory/" ++ toString st.nextId ++ "/photo") }
    ({ st1 with inventory := st1.inventory ++ [item], nextId := st.nextId + 1 },
     .itemJson 201 item)

/-- `app.get('/inventory')`. -/
def getInventory (st : Store) : Resp := .listJson st.inventory

/-- `app.get('/inventory/:id')`. -/
def getInventoryId (st : Store) (idStr : String) : Resp :=
  match findItem st.inventory idStr with
  | some item => .itemJson 200 item
  | none => .errorJson 404 "Item not found"

/-- Body of a `PUT /inventory/:id` request (JSON or form). -/
structure UpdateReq where
  inventory_name : Option String
  description : Option String
deriving Repr, DecidableEq

/-- Mutating the object returned by `Array.prototype.find` in place:
replace the first element satisfying `p` by its image under `f`. -/
def updateFirst (l : List Item) (p : Item → Bool) (f : Item → Item) : List Item :=
  match l with
  | [] => []
  | i :: rest => if p i then f i :: rest else i :: updateFirst rest p f

/-- The in-place field update of `app.put('/inventory/:id')`: a field
present in the body (even the empty string — `!== undefined`) overwrites,
an absent one is kept. -/
def applyUpdate (req : UpdateReq) (i : Item) : Item :=
  { i with
    inventory_name := req.inventory_name.getD i.inventory_name
    description := req.description.getD i.description }

/-- `app.put('/inventory/:id')`. -/
def putInventoryId (st : Store) (idStr : String) (req : UpdateReq) :
    Store × Resp :=
  match findItem st.inventory idStr with
  | none => (st, .errorJson 404 "Item not found")
  | some item =>
    let item' := applyUpdate req item
    let inv' := updateFirst st.inventory
      (fun i => parseIntJS idStr == some (Int.ofNat i.id)) (applyUpdate req)
    ({ st with inventory := inv' }, .itemJson 200 item')

/-- `app.get('/inventory/:id/photo')`: 404 "Photo not found" when the
item is absent or `item.photo` is falsy; 404 "Photo file not found" when
the referenced file is missing from the cache directory; otherwise the
file content is served. -/
def getInventoryIdPhoto (st : Store) (idStr : String) : Resp :=
  match findItem st.inventory idStr with
  | none => .errorJson 404 "Photo not found"
  | some item =>
    match item.photo with
    | none => .errorJson 404 "Photo not found"
    | some p =>
      if p == "" then .errorJson 404 "Photo not found"
      else
        match st.cache.fread p with
        | some content => .fileBody content
        | none => .errorJson 404 "Photo file not found"

/-- `app.put('/inventory/:id/photo', upload.single('photo'), ...)`:
multer writes the new file first; a missing item is 404, a missing file
part 400; a truthy old `item.photo` whose file still exists is unlinked,
then the reference and derived URL (built from the raw `req.params.id`)
are swapped in. -/
def putInventoryIdPhoto (st : Store) (idStr : String)
    (photo : Option Upload) (genName : String) : Store × Resp :=
  let m := multerSingle st.cache photo genName
  let st1 := { st with cache := m.1 }
  match findItem st.inventory idStr with
  | none => (st1, .errorJson 404 "Item not found")
  | some item =>
    match m.2 with
    | none => (st1, .errorJson 400 "Photo file is required")
    | some fname =>
      let cache2 :=
        match item.photo with
        | some old =>
          if old != "" && st1.cache.fexists old then st1.cache.funlink old
          else st1.cache
        | none => st1.cache
      let swap : Item → Item := fun i =>
        { i with photo := some fname,
                 photo_url := some ("/inventory/" ++ idStr ++ "/photo") }
      let item' := swap item
      let inv' := updateFirst st1.inventory
        (fun i => parseIntJS idStr == some (Int.ofNat i.id)) swap
      ({ st1 with cache := cache2, inventory := inv' },
       .itemJson 200 item')

/-- Removal of the first element satisfying `p`, returning it and the
remaining list — models `findItemIndex` + `inventory.splice(index, 1)`. -/
def removeFirst (l : List Item) (p : Item → Bool) :
    Option (Item × List Item) :=
  match l with
  | [] => none
  | i :: rest =>
    if p i then some (i, rest)
    else (removeFirst rest p).map (fun x => (x.1, i :: x.2))

/-- `app.delete('/inventory/:id')`: 404 when no index matches; otherwise
the photo file (if referenced and present) is unlinked and the record
spliced out. -/
def deleteInventoryId (st : Store) (idStr : String) : Store × Resp :=
  match removeFirst st.inventory
      (fun i => parseIntJS idStr == some (Int.ofNat i.id)) with
  | none => (st, .errorJson 404 "Item not found")
  | some (item, rest) =>
    let cache' :=
      match item.photo with
      | some p =>
        if p != "" && st.cache.fexists p then st.cache.funlink p
        else st.cache
      | none => st.cache
    ({ st with inventory := rest, cache := cache' },
     .msgJson "Item deleted successfully")

/-- Body of a `POST /search` request. -/
structure SearchReq where
  id : Option String
  has_photo : Option String
deriving Repr, DecidableEq

/-- Rendering of `photo_url` inside the template literal: JS prints
`null` for a null value. -/
def renderUrl : Option String → String
  | none => "null"
  | some u => u

/-- `app.post('/search')`: the found item is shallow-copied
(`{ ...item }`); when `has_photo === 'on'` and the item has a truthy
photo, the note is appended to the copy's description.  The store is
returned unchanged, as the handler never writes to `inventory`. -/
def postSearch (st : Store) (req : SearchReq) : Store × Resp :=
  let found :=
    match req.id with
    | none => none
    | some s => findItem st.inventory s
  match found with
  | none => (st, .errorJson 404 "Item not found")
  | some item =>
    let result :=
      if req.has_photo == some "on" && truthy item.photo then
        { item with description :=
            item.description ++ "\nPhoto: " ++ renderUrl item.photo_url }
      else item
    (st, .itemJson 200 result)

/-- One client operation against the running server, with the
nondeterministic generated filename (multer's `Date.now()-random` name)
made explicit where an upload can occur. -/
inductive Op where
  | register (req : RegisterReq) (genName : String)
  | listAll
  | get (idStr : String)
  | update (idStr : String) (req : UpdateReq)
  | photoGet (idStr : String)
  | photoPut (idStr : String) (photo : Option Upload) (genName : String)
  | del (idStr : String)
  | search (req : SearchReq)
deriving Repr

/-- Dispatch of one operation to its route handler. -/
def stepOp (st : Store) : Op → Store × Resp
  | .register req g => postRegister st req g
  | .listAll => (st, getInventory st)
  | .get s => (st, getInventoryId st s)
  | .update s r => putInventoryId st s r
  | .photoGet s => (st, getInventoryIdPhoto st s)
  | .photoPut s p g => putInventoryIdPhoto st s p g
  | .del s => deleteInventoryId st s
  | .search r => postSearch st r

/-- Execution of a sequence of operations from a state, collecting the
responses in call order. -/
def run (st : Store) : List Op → Store × List Resp
  | [] => (st, [])
  | op :: ops =>
    let s1 := stepOp st op
    let s2 := run s1.1 ops
    (s2.1, s1.2 :: s2.2)

/-- The id carried by a 201 Created response (the response shape of a
successful `create_item`), if any. -/
def createdId : Resp → Option Nat
  | .itemJson s it => if s = 201 then some it.id else none
  | _ => none

/-- The ids returned by successful `create_item` calls, in call order. -/
def createdIds (rs : List Resp) : List Nat :=
  rs.filterMap createdId

/-! ### Cache directory lemmas -/

lemma fexists_funlink_self (fs : FS) (n : String) :
    (fs.funlink n).fexists n = false := by
  induction fs with
  | nil => rfl
  | cons e rest ih =>
    by_cases h : e.1 = n
    · simpa [FS.funlink, FS.fexists, List.filter_cons, h] using ih
    · simpa [FS.funlink, FS.fexists, List.filter_cons, h] using ih

lemma fread_funlink_ne (fs : FS) (m n : String) (h : m ≠ n) :
    (fs.funlink n).fread m = fs.fread m := by
  induction fs with
  | nil => rfl
  | cons e rest ih =>
    rcases e with ⟨a, c⟩
    by_cases he : a = n
    · subst he
      have hm : (a == m) = false := beq_eq_false_iff_ne.mpr (Ne.symm h)
      have hdrop : (a != a) = false := by simp
      simp only [FS.funlink, FS.fread, List.filter_cons, hdrop, Bool.false_eq_true,
        if_false] at ih ⊢
      rw [List.find?_cons_of_neg _ (by simp [hm])]
      exact ih
    · have hkeep : (a != n) = true := by simpa using he
      by_cases hm : a = m
      · subst hm
        simp only [FS.funlink, FS.fread, List.filter_cons, hkeep, if_true]
        rw [List.find?_cons_of_pos _ (by simp), List.find?_cons_of_pos _ (by simp)]
      · simp only [FS.funlink, FS.fread, List.filter_cons, hkeep, if_true] at ih ⊢
        rw [List.find?_cons_of_neg _ (by simp [hm]),
          List.find?_cons_of_neg _ (by simp [hm])]
        exact ih

lemma fread_fwrite_self (fs : FS) (n c : String) :
    (fs.fwrite n c).fread n = some c := by
  simp [FS.fwrite, FS.fread, List.find?_cons]

/-! ### First-match list lemmas -/

lemma find?_updateFirst (l : List Item) (p : Item → Bool) (f : Item → Item)
    (it : Item) (h : l.find? p = some it) (hf : p (f it) = true) :
    (updateFirst l p f).find? p = some (f it) := by
  induction l with
  | nil => simp at h
  | cons i rest ih =>
    by_cases hp : p i
    · rw [List.find?_cons_of_pos _ hp] at h
      cases h
      simp [updateFirst, hp, List.find?_cons_of_pos _ hf]
    · rw [List.find?_cons_of_neg _ (by simpa using hp)] at h
      simp [updateFirst, hp, List.find?_cons_of_neg _ (by simpa using hp : ¬ p i = true)]
      exact ih h

lemma updateFirst_length (l : List Item) (p : Item → Bool) (f : Item → Item) :
    (updateFirst l p f).length = l.length := by
  induction l with
  | nil => rfl
  | cons i rest ih =>
    by_cases hp : p i <;> simp [updateFirst, hp, ih]

lemma updateFirst_get (l : List Item) (p : Item → Bool) (f : Item → Item)
    (j : Nat) (hj : j < l.length) (hj' : j < (updateFirst l p f).length) :
    ((updateFirst l p f).get ⟨j, hj'⟩ = l.get ⟨j, hj⟩ ∨
      (updateFirst l p f).get ⟨j, hj'⟩ = f (l.get ⟨j, hj⟩)) ∧
    (p (l.get ⟨j, hj⟩) = false →
      (updateFirst l p f).get ⟨j, hj'⟩ = l.get ⟨j, hj⟩) := by
  induction l generalizing j with
  | nil => simp at hj
  | cons i rest ih =>
    by_cases hp : p i
    · cases j with
      | zero =>
        constructor
        · right; simp [updateFirst, hp]
        · intro hfalse
          simp only [List.get] at hfalse
          simp [hfalse] at hp
      | succ k =>
        constructor
        · left; simp [updateFirst, hp]
        · intro hfalse
          simp [updateFirst, hp]
    · cases j with
      | zero => simp [updateFirst, hp]
      | succ k =>
        have hk : k < rest.length := by simpa using hj
        have hk' : k < (updateFirst rest p f).length := by
          simpa [updateFirst, hp] using hj'
        constructor
        · rcases (ih k hk hk').1 with h | h
          · left; simpa [updateFirst, hp] using h
          · right; simpa [updateFirst, hp] using h
        · intro hfalse
          have := (ih k hk hk').2 (by simpa using hfalse)
          simpa [updateFirst, hp] using this

lemma removeFirst_of_find? (l : List Item) (p : Item → Bool) (it : Item)
    (h : l.find? p = some it) :
    ∃ l1 l2, l = l1 ++ it :: l2 ∧
      removeFirst l p = some (it, l1 ++ l2) ∧
      (∀ x ∈ l1, p x = false) ∧ p it = true := by
  induction l with
  | nil => simp at h
  | cons i rest ih =>
    by_cases hp : p i
    · rw [List.find?_cons_of_pos _ hp] at h
      cases h
      exact ⟨[], rest, by simp, by simp [removeFirst, hp], by simp, hp⟩
    · rw [List.find?_cons_of_neg _ (by simpa using hp)] at h
      obtain ⟨l1, l2, hl, hr, hall, hit⟩ := ih h
      refine ⟨i :: l1, l2, by simp [hl], ?_, ?_, hit⟩
      · simp [removeFirst, hp, hr]
      · intro x hx
        rcases List.mem_cons.mp hx with rfl | hx
        · simpa using hp
        · exact hall x hx

lemma removeFirst_eq_none (l : List Item) (p : Item → Bool)
    (h : ∀ x ∈ l, p x = false) : removeFirst l p = none := by
  induction l with
  | nil => rfl
  | cons i rest ih =>
    have hi := h i (by simp)
    simp [removeFirst, hi]
    exact ih fun x hx => h x (List.mem_cons_of_mem _ hx)

/-! ### Id-allocation lemmas -/

lemma stepOp_created (st : Store) (op : Op) :
    (createdId (stepOp st op).2 = none ∧ (stepOp st op).1.nextId = st.nextId) ∨
    (createdId (stepOp st op).2 = some st.nextId ∧
      (stepOp st op).1.nextId = st.nextId + 1) := by
  cases op <;>
    simp only [stepOp, postRegister, getInventory, getInventoryId, putInventoryId,
      getInventoryIdPhoto, putInventoryIdPhoto, deleteInventoryId, postSearch] <;>
    (repeat' split) <;>
    simp [createdId]

lemma run_createdIds (ops : List Op) (st : Store) :
    (∀ x ∈ createdIds (run st ops).2, st.nextId ≤ x) ∧
    List.Pairwise (· < ·) (createdIds (run st ops).2) := by
  induction ops generalizing st with
  | nil => simp [run, createdIds]
  | cons op ops ih =>
    rcases stepOp_created st op with ⟨hnone, hid⟩ | ⟨hsome, hid⟩
    · have h := ih (stepOp st op).1
      rw [hid] at h
      constructor
      · intro x hx
        exact h.1 x (by simpa [run, createdIds, List.filterMap_cons, hnone] using hx)
      · simpa [run, createdIds, List.filterMap_cons, hnone] using h.2
    · have h := ih (stepOp st op).1
      rw [hid] at h
      constructor
      · intro x hx
        simp only [run, createdIds, List.filterMap_cons, hsome] at hx
        rcases List.mem_cons.mp hx with rfl | hx
        · exact le_refl _
        · exact le_trans (Nat.le_succ _) (h.1 x hx)
      · simp only [run, createdIds, List.filterMap_cons, hsome]
        exact List.Pairwise.cons
          (fun x hx => lt_of_lt_of_le (Nat.lt_succ_self _) (h.1 x hx)) h.2

/-! ### Claim theorems -/

/-- C3: for every sequence of operations run from the initial state, the
ids returned by successful create_item calls (201 responses) are
pairwise strictly increasing in call order; in particular an id, once
allocated, is never returned by a later create, even after the item with
that id has been deleted. -/
theorem C3_created_ids_strictly_increasing (ops : List Op) :
    List.Pairwise (· < ·) (createdIds (run initStore ops).2) :=
  (run_createdIds ops initStore).2

/-- C1 counterexample: registering with a whitespace-only name and an
image-typed photo returns 400 and adds no Item, but the photo file HAS
been stored in the cache directory by the upload middleware, refuting
the claim that no photo file is stored. -/
theorem C1_counterexample :
    (postRegister initStore
      { inventory_name := some "  ", description := none,
        photo := some { mimetype := "image/png", content := "BYTES" } }
      "f1.png").2.status = 400 ∧
    (postRegister initStore
      { inventory_name := some "  ", description := none,
        photo := some { mimetype := "image/png", content := "BYTES" } }
      "f1.png").1.inventory = [] ∧
    (postRegister initStore
      { inventory_name := some "  ", description := none,
        photo := some { mimetype := "image/png", content := "BYTES" } }
      "f1.png").1.cache = [("f1.png", "BYTES")] := by
  refine ⟨rfl, rfl, by decide⟩

/-- C1 (amended): a register request whose inventory_name is absent or
empty after trimming returns ValidationError 400 and leaves the
collection and the id counter unchanged; the cache directory is exactly
the result of the upload middleware, so it is unchanged unless the
request carried an image-typed photo, in which case that file has
already been written and remains stored. -/
theorem C1_invalid_name_rejected (st : Store) (req : RegisterReq) (genName : String)
    (h : req.inventory_name = none ∨
      ∃ s, req.inventory_name = some s ∧ trimJS s = "") :
    (postRegister st req genName).2 = .errorJson 400 "Inventory name is required" ∧
    (postRegister st req genName).1.inventory = st.inventory ∧
    (postRegister st req genName).1.nextId = st.nextId ∧
    (postRegister st req genName).1.cache = (multerSingle st.cache req.photo genName).1 ∧
    (∀ u, req.photo = some u → startsWithJS u.mimetype "image/" = true →
      (postRegister st req genName).1.cache = st.cache.fwrite genName u.content) := by
  have hguard : (!truthy req.inventory_name ||
      !truthy (req.inventory_name.map (fun s => trimJS s))) = true := by
    rcases h with h | ⟨s, hs, ht⟩
    · simp [h, truthy]
    · simp [hs, truthy, ht]
  refine ⟨?_, ?_, ?_, ?_, ?_⟩ <;>
    try simp [postRegister, hguard]
  intro u hu him
  simp [postRegister, hguard, multerSingle, hu, him]

/-- Witness for C1: a concrete whitespace-only-name request is rejected
with the 400 error. -/
theorem C1_invalid_name_rejected_witness :
    (postRegister initStore
      { inventory_name := some " ", description := none, photo := none }
      "g").2 = .errorJson 400 "Inventory name is required" :=
  (C1_invalid_name_rejected initStore
    { inventory_name := some " ", description := none, photo := none }
    "g" (Or.inr ⟨" ", rfl, by decide⟩)).1

/-- C2 counterexample: a register request with a valid name and a
text/plain photo is NOT rejected — it returns 201 and creates the Item
(with no photo), refuting the claim that such a request fails with
ValidationError and creates no Item record. -/
theorem C2_counterexample :
    (postRegister initStore
      { inventory_name := some "Saw", description := none,
        photo := some { mimetype := "text/plain", content := "EVIL" } }
      "f2.txt").2.status = 201 ∧
    (postRegister initStore
      { inventory_name := some "Saw", description := none,
        photo := some { mimetype := "text/plain", content := "EVIL" } }
      "f2.txt").1.inventory =
      [{ id := 1, inventory_name := "Saw", description := "",
         photo := none, photo_url := none }] := by
  refine ⟨rfl, by decide⟩

/-- C2 (amended): a photo part whose declared media type does not begin
with image/ is silently discarded by the upload filter rather than
rejected: the payload is never persisted to the cache directory, and any
Item the request creates has no photo and no photo_url. -/
theorem C2_nonimage_photo_never_persisted (st : Store) (req : RegisterReq)
    (genName : String) (u : Upload) (hu : req.photo = some u)
    (him : startsWithJS u.mimetype "image/" = false) :
    (postRegister st req genName).1.cache = st.cache ∧
    (∀ s it, (postRegister st req genName).2 = .itemJson s it →
      it.photo = none ∧ it.photo_url = none) := by
  constructor
  · simp only [postRegister, multerSingle, hu, him]
    split <;> rfl
  · intro s it hresp
    simp only [postRegister, multerSingle, hu, him] at hresp
    split at hresp
    · cases hresp
    · cases hresp
      exact ⟨rfl, rfl⟩

/-- Witness for C2: a concrete text/plain upload leaves the cache
directory untouched. -/
theorem C2_nonimage_photo_never_persisted_witness :
    (postRegister initStore
      { inventory_name := some "Saw", description := none,
        photo := some { mimetype := "text/plain", content := "EVIL" } }
      "f2.txt").1.cache = initStore.cache :=
  (C2_nonimage_photo_never_persisted initStore
    { inventory_name := some "Saw", description := none,
      photo := some { mimetype := "text/plain", content := "EVIL" } }
    "f2.txt" { mimetype := "text/plain", content := "EVIL" } rfl (by decide)).1

/-- C4 counterexample: a dangling photo reference (file absent from the
cache) and a nonexistent item both yield status 404, but with different
error bodies, so the responses do reveal which condition applied. -/
theorem C4_counterexample :
    (getInventoryIdPhoto
      { inventory := [{ id := 1, inventory_name := "x", description := "",
                        photo := some "p.jpg",
                        photo_url := some "/inventory/1/photo" }],
        nextId := 2, cache := [] } "1").status = 404 ∧
    (getInventoryIdPhoto { inventory := [], nextId := 1, cache := [] } "1").status = 404 ∧
    getInventoryIdPhoto
      { inventory := [{ id := 1, inventory_name := "x", description := "",
                        photo := some "p.jpg",
                        photo_url := some "/inventory/1/photo" }],
        nextId := 2, cache := [] } "1" ≠
      getInventoryIdPhoto { inventory := [], nextId := 1, cache := [] } "1" := by
  refine ⟨rfl, rfl, by decide⟩

/-- C4 (amended): all three conditions — item absent, item without a
(truthy) photo reference, referenced file absent from the cache — make
fetch_photo answer 404; the first two produce the identical response
(error "Photo not found"), while the third produces the distinct
error "Photo file not found", so a dangling file reference is
distinguishable from the other two conditions. -/
theorem C4_photo_not_found_collapses (st : Store) (idStr : String) :
    (findItem st.inventory idStr = none →
      getInventoryIdPhoto st idStr = .errorJson 404 "Photo not found") ∧
    (∀ it, findItem st.inventory idStr = some it →
      (it.photo = none ∨ it.photo = some "") →
      getInventoryIdPhoto st idStr = .errorJson 404 "Photo not found") ∧
    (∀ it p, findItem st.inventory idStr = some it → it.photo = some p →
      p ≠ "" → st.cache.fread p = none →
      getInventoryIdPhoto st idStr = .errorJson 404 "Photo file not found") := by
  refine ⟨?_, ?_, ?_⟩
  · intro h
    simp [getInventoryIdPhoto, h]
  · intro it hit hph
    rcases hph with hph | hph <;> simp [getInventoryIdPhoto, hit, hph]
  · intro it p hit hph hne hread
    have hbeq : (p == "") = false := beq_eq_false_iff_ne.mpr hne
    simp [getInventoryIdPhoto, hit, hph, hbeq, hread]

/-- Witness for C4 (amended): the empty store yields the "Photo not
found" 404 for id 1. -/
theorem C4_photo_not_found_collapses_witness :
    getInventoryIdPhoto { inventory := [], nextId := 1, cache := [] } "1" =
      .errorJson 404 "Photo not found" :=
  (C4_photo_not_found_collapses
    { inventory := [], nextId := 1, cache := [] } "1").1 rfl

/-- C5: for every existing item, a replace_photo with an image upload
under a fresh, nonempty generated filename succeeds with 200 — also when
the previously referenced file is already missing, since deletion of the
old file is best-effort; afterwards fetch_photo for that id returns
exactly the newly uploaded content, and the previously referenced photo
file no longer exists in the cache directory. -/
theorem C5_replace_photo_swaps_content (st : Store) (idStr : String)
    (item : Item) (u : Upload) (genName : String)
    (hfind : findItem st.inventory idStr = some item)
    (himg : startsWithJS u.mimetype "image/" = true)
    (hg : genName ≠ "")
    (hfresh : ∀ old, item.photo = some old → old ≠ genName) :
    (putInventoryIdPhoto st idStr (some u) genName).2.status = 200 ∧
    getInventoryIdPhoto (putInventoryIdPhoto st idStr (some u) genName).1 idStr =
      .fileBody u.content ∧
    (∀ old, item.photo = some old → old ≠ "" →
      FS.fexists (putInventoryIdPhoto st idStr (some u) genName).1.cache old
        = false) := by
  have hfind' : st.inventory.find?
      (fun i => parseIntJS idStr == some (Int.ofNat i.id)) = some item := hfind
  have hp := List.find?_some hfind'
  have hg' : (genName == "") = false := beq_eq_false_iff_ne.mpr hg
  set p : Item → Bool := fun i => parseIntJS idStr == some (Int.ofNat i.id) with hpdef
  set fs1 : FS := st.cache.fwrite genName u.content with hfs1
  set swap : Item → Item := fun i =>
    { i with photo := some genName,
             photo_url := some ("/inventory/" ++ idStr ++ "/photo") } with hswap
  have hps : p (swap item) = true := hp
  have hfind2 : (updateFirst st.inventory p swap).find? p = some (swap item) :=
    find?_updateFirst st.inventory p swap item hfind hps
  have hput : putInventoryIdPhoto st idStr (some u) genName =
      ({ inventory := updateFirst st.inventory p swap, nextId := st.nextId,
         cache := match item.photo with
           | some old => if old != "" && fs1.fexists old then fs1.funlink old
                         else fs1
           | none => fs1 },
       .itemJson 200 (swap item)) := by
    simp only [putInventoryIdPhoto, multerSingle, himg, if_true, hfind]
  refine ⟨by rw [hput]; rfl, ?_, ?_⟩
  · rw [hput]
    have hread : FS.fread (match item.photo with
        | some old => if old != "" && fs1.fexists old then fs1.funlink old
                      else fs1
        | none => fs1) genName = some u.content := by
      cases hph : item.photo with
      | none => simp [hfs1, fread_fwrite_self]
      | some old =>
        have hne : genName ≠ old := fun h => hfresh old hph h.symm
        by_cases hgd : (old != "" && fs1.fexists old) = true
        · simp only [hgd, if_true]
          rw [fread_funlink_ne _ _ _ hne]
          simp [hfs1, fread_fwrite_self]
        · simp only [hgd]
          simp only [Bool.not_eq_true] at hgd
          simp [hgd, hfs1, fread_fwrite_self]
    simp only [getInventoryIdPhoto, findItem]
    rw [hfind2]
    simp only [hswap, hg']
    rw [hread]
    simp
  · intro old hph hone
    rw [hput]
    have ho : (old != "") = true := by simpa using hone
    by_cases hex : fs1.fexists old = true
    · simp only [hph, ho, hex, Bool.and_self, if_true]
      exact fexists_funlink_self fs1 old
    · simp only [Bool.not_eq_true] at hex
      simp [hph, ho, hex]

/-- Witness for C5: replacing the photo of a concrete item whose old
file is present, then fetching, yields the new content. -/
theorem C5_replace_photo_swaps_content_witness :
    getInventoryIdPhoto
      (putInventoryIdPhoto
        { inventory := [{ id := 1, inventory_name := "x", description := "",
                          photo := some "old.jpg",
                          photo_url := some "/inventory/1/photo" }],
          nextId := 2, cache := [("old.jpg", "OLD")] }
        "1" (some { mimetype := "image/png", content := "NEW" }) "new.png").1
      "1" = .fileBody "NEW" :=
  (C5_replace_photo_swaps_content
    { inventory := [{ id := 1, inventory_name := "x", description := "",
                      photo := some "old.jpg",
                      photo_url := some "/inventory/1/photo" }],
      nextId := 2, cache := [("old.jpg", "OLD")] }
    "1"
    { id := 1, inventory_name := "x", description := "",
      photo := some "old.jpg", photo_url := some "/inventory/1/photo" }
    { mimetype := "image/png", content := "NEW" }
    "new.png" (by decide) (by decide) (by decide)
    (fun old h => by cases h; decide)).2.1

/-- C6: for every existing item, update_item overwrites each field that
is present in the request — including the empty string, with no trimming
and no non-empty validation — and keeps each absent field unchanged;
the updated record is both returned (200) and stored in the
collection. -/
theorem C6_partial_update_semantics (st : Store) (idStr : String)
    (req : UpdateReq) (item : Item)
    (hfind : findItem st.inventory idStr = some item) :
    (putInventoryId st idStr req).2 = .itemJson 200
      { item with
        inventory_name :=
          match req.inventory_name with
          | some n => n
          | none => item.inventory_name,
        description :=
          match req.description with
          | some d => d
          | none => item.description } ∧
    findItem (putInventoryId st idStr req).1.inventory idStr = some
      { item with
        inventory_name :=
          match req.inventory_name with
          | some n => n
          | none => item.inventory_name,
        description :=
          match req.description with
          | some d => d
          | none => item.description } := by
  have hfind' : st.inventory.find?
      (fun i => parseIntJS idStr == some (Int.ofNat i.id)) = some item := hfind
  have hp := List.find?_some hfind'
  have happ : applyUpdate req item =
      { item with
        inventory_name :=
          match req.inventory_name with
          | some n => n
          | none => item.inventory_name,
        description :=
          match req.description with
          | some d => d
          | none => item.description } := by
    cases hn : req.inventory_name <;> cases hd : req.description <;>
      simp [applyUpdate, hn, hd]
  have hps : (fun i => parseIntJS idStr == some (Int.ofNat i.id))
      (applyUpdate req item) = true := hp
  have hfind2 := find?_updateFirst st.inventory
    (fun i => parseIntJS idStr == some (Int.ofNat i.id))
    (applyUpdate req) item hfind' hps
  constructor
  · simp only [putInventoryId, findItem, hfind']
    rw [← happ]
  · simp only [putInventoryId, findItem, hfind']
    rw [← happ]
    exact hfind2

/-- Witness for C6: updating a concrete item with empty-string name and
description stores and returns the emptied record. -/
theorem C6_partial_update_semantics_witness :
    (putInventoryId
      { inventory := [{ id := 1, inventory_name := "Drill",
                        description := "d", photo := none, photo_url := none }],
        nextId := 2, cache := [] }
      "1" { inventory_name := some "", description := some "" }).2 =
      .itemJson 200 { id := 1, inventory_name := "", description := "",
                      photo := none, photo_url := none } :=
  (C6_partial_update_semantics
    { inventory := [{ id := 1, inventory_name := "Drill",
                      description := "d", photo := none, photo_url := none }],
      nextId := 2, cache := [] }
    "1" { inventory_name := some "", description := some "" }
    { id := 1, inventory_name := "Drill", description := "d",
      photo := none, photo_url := none }
    (by decide)).1

/-- C7: the first delete on an existing item answers with the success
message, removes exactly that record from the collection, and leaves the
cache directory without the referenced photo file (whether or not it
existed, missing files being tolerated); a second delete on the same id
then returns 404. -/
theorem C7_delete_twice (st : Store) (idStr : String) (item : Item)
    (hfind : findItem st.inventory idStr = some item)
    (huniq : st.inventory.Pairwise (fun a b => a.id ≠ b.id)) :
    (deleteInventoryId st idStr).2 = .msgJson "Item deleted successfully" ∧
    (∃ l1 l2, st.inventory = l1 ++ item :: l2 ∧
      (deleteInventoryId st idStr).1.inventory = l1 ++ l2) ∧
    (∀ ph, item.photo = some ph → ph ≠ "" →
      FS.fexists (deleteInventoryId st idStr).1.cache ph = false) ∧
    (deleteInventoryId (deleteInventoryId st idStr).1 idStr).2 =
      .errorJson 404 "Item not found" := by
  have hfind' : st.inventory.find?
      (fun i => parseIntJS idStr == some (Int.ofNat i.id)) = some item := hfind
  obtain ⟨l1, l2, hl, hrm, hall, hit⟩ :=
    removeFirst_of_find? st.inventory _ item hfind'
  have hparse : parseIntJS idStr = some (Int.ofNat item.id) := by
    simpa using hit
  have hdel : deleteInventoryId st idStr =
      ({ st with
           inventory := l1 ++ l2,
           cache :=
             match item.photo with
             | some ph =>
               if ph != "" && st.cache.fexists ph then st.cache.funlink ph
               else st.cache
             | none => st.cache },
       .msgJson "Item deleted successfully") := by
    simp only [deleteInventoryId, hrm]
  have hnone2 : ∀ x ∈ l1 ++ l2,
      (parseIntJS idStr == some (Int.ofNat x.id)) = false := by
    intro x hx
    rw [hparse]
    rcases List.mem_append.mp hx with hx1 | hx2
    · have := hall x hx1
      rwa [hparse] at this
    · rw [hl] at huniq
      have hhead : ∀ b ∈ l2, item.id ≠ b.id :=
        (List.pairwise_cons.mp (List.pairwise_append.mp huniq).2.1).1
      apply beq_eq_false_iff_ne.mpr
      intro hcontra
      exact hhead x hx2 (Int.ofNat.inj (Option.some.inj hcontra))
  constructor
  · rw [hdel]
  refine ⟨⟨l1, l2, hl, by rw [hdel]⟩, ?_, ?_⟩
  · intro ph hph hne
    rw [hdel]
    have ho : (ph != "") = true := by simpa using hne
    by_cases hex : st.cache.fexists ph = true
    · simp only [hph, ho, hex, Bool.and_self, if_true]
      exact fexists_funlink_self st.cache ph
    · simp only [Bool.not_eq_true] at hex
      simp [hph, ho, hex]
  · rw [hdel]
    have : removeFirst (l1 ++ l2)
        (fun i => parseIntJS idStr == some (Int.ofNat i.id)) = none :=
      removeFirst_eq_none _ _ hnone2
    simp only [deleteInventoryId, this]

/-- Witness for C7: deleting a concrete item with a photo succeeds, and
a second delete on the same id answers 404. -/
theorem C7_delete_twice_witness :
    (deleteInventoryId
      { inventory := [{ id := 1, inventory_name := "x", description := "",
                        photo := some "p.jpg",
                        photo_url := some "/inventory/1/photo" }],
        nextId := 2, cache := [("p.jpg", "P")] } "1").2 =
      .msgJson "Item deleted successfully" ∧
    (deleteInventoryId
      (deleteInventoryId
        { inventory := [{ id := 1, inventory_name := "x", description := "",
                          photo := some "p.jpg",
                          photo_url := some "/inventory/1/photo" }],
          nextId := 2, cache := [("p.jpg", "P")] } "1").1 "1").2 =
      .errorJson 404 "Item not found" :=
  ⟨(C7_delete_twice
      { inventory := [{ id := 1, inventory_name := "x", description := "",
                        photo := some "p.jpg",
                        photo_url := some "/inventory/1/photo" }],
        nextId := 2, cache := [("p.jpg", "P")] } "1"
      { id := 1, inventory_name := "x", description := "",
        photo := some "p.jpg", photo_url := some "/inventory/1/photo" }
      (by decide) (by simp)).1,
   (C7_delete_twice
      { inventory := [{ id := 1, inventory_name := "x", description := "",
                        photo := some "p.jpg",
                        photo_url := some "/inventory/1/photo" }],
        nextId := 2, cache := [("p.jpg", "P")] } "1"
      { id := 1, inventory_name := "x", description := "",
        photo := some "p.jpg", photo_url := some "/inventory/1/photo" }
      (by decide) (by simp)).2.2.2⟩

/-- C8: a search with the photo-note flag set (`has_photo=on`) leaves
the store totally unchanged; when the found item has a (truthy) photo
the returned view is the item with the photo-URL note appended to its
description, and when it has no photo the returned view is exactly the
stored item, description unchanged. -/
theorem C8_search_note_view_only (st : Store) (idStr : String) (item : Item)
    (hfind : findItem st.inventory idStr = some item) :
    (postSearch st { id := some idStr, has_photo := some "on" }).1 = st ∧
    (∀ ph, item.photo = some ph → ph ≠ "" →
      (postSearch st { id := some idStr, has_photo := some "on" }).2 =
        .itemJson 200 { item with description :=
          item.description ++ "\nPhoto: " ++ renderUrl item.photo_url }) ∧
    ((item.photo = none ∨ item.photo = some "") →
      (postSearch st { id := some idStr, has_photo := some "on" }).2 =
        .itemJson 200 item) := by
  refine ⟨?_, ?_, ?_⟩
  · simp [postSearch, hfind]
  · intro ph hph hne
    have ht : truthy item.photo = true := by simp [truthy, hph, hne]
    simp [postSearch, hfind, ht]
  · intro hph
    have ht : truthy item.photo = false := by
      rcases hph with hph | hph <;> simp [truthy, hph]
    simp [postSearch, hfind, ht]

/-- Witness for C8: searching a concrete photo-less item with
`has_photo=on` returns it with unchanged description. -/
theorem C8_search_note_view_only_witness :
    (postSearch
      { inventory := [{ id := 1, inventory_name := "Drill", description := "",
                        photo := none, photo_url := none }],
        nextId := 2, cache := [] }
      { id := some "1", has_photo := some "on" }).2 =
      .itemJson 200 { id := 1, inventory_name := "Drill", description := "",
                      photo := none, photo_url := none } :=
  (C8_search_note_view_only
    { inventory := [{ id := 1, inventory_name := "Drill", description := "",
                      photo := none, photo_url := none }],
      nextId := 2, cache := [] }
    "1"
    { id := 1, inventory_name := "Drill", description := "",
      photo := none, photo_url := none }
    (by decide)).2.2 (Or.inl rfl)

/-- C9: lookup matches exactly by integer equality — every found item is
a member of the collection whose stored id equals the parsed requested
id (and is then answered with 200); when some member's id equals the
parsed id the lookup finds an item; and a requested id that fails to
parse as an integer yields the ordinary 404 NotFound, not a distinct
error. -/
theorem C9_lookup_integer_equality (st : Store) (idStr : String) :
    (∀ item, findItem st.inventory idStr = some item →
      item ∈ st.inventory ∧ parseIntJS idStr = some (Int.ofNat item.id) ∧
      getInventoryId st idStr = .itemJson 200 item) ∧
    ((∃ item ∈ st.inventory, parseIntJS idStr = some (Int.ofNat item.id)) →
      ∃ item, findItem st.inventory idStr = some item) ∧
    (parseIntJS idStr = none →
      getInventoryId st idStr = .errorJson 404 "Item not found") := by
  refine ⟨?_, ?_, ?_⟩
  · intro item h
    have h' : st.inventory.find?
        (fun i => parseIntJS idStr == some (Int.ofNat i.id)) = some item := h
    refine ⟨List.mem_of_find?_eq_some h', ?_, by simp [getInventoryId, h]⟩
    have := List.find?_some h'
    simpa using this
  · rintro ⟨item, hmem, hparse⟩
    have hs : (st.inventory.find?
        (fun i => parseIntJS idStr == some (Int.ofNat i.id))).isSome := by
      rw [List.find?_isSome]
      exact ⟨item, hmem, by simp [hparse]⟩
    obtain ⟨it, hit⟩ := Option.isSome_iff_exists.mp hs
    exact ⟨it, hit⟩
  · intro hnone
    have hfind : st.inventory.find?
        (fun i => parseIntJS idStr == some (Int.ofNat i.id)) = none :=
      List.find?_eq_none.mpr (by intro x hx; simp [hnone])
    simp only [getInventoryId, findItem]
    rw [hfind]

/-- Witness for C9: the id string "abc" fails to parse and yields the
404 NotFound response on a nonempty store. -/
theorem C9_lookup_integer_equality_witness :
    getInventoryId
      { inventory := [{ id := 1, inventory_name := "x", description := "",
                        photo := none, photo_url := none }],
        nextId := 2, cache := [] } "abc" =
      .errorJson 404 "Item not found" :=
  (C9_lookup_integer_equality
    { inventory := [{ id := 1, inventory_name := "x", description := "",
                      photo := none, photo_url := none }],
      nextId := 2, cache := [] } "abc").2.2 rfl

lemma updateFirst_getElem? (l : List Item) (p : Item → Bool) (f : Item → Item)
    (j : Nat) :
    (updateFirst l p f)[j]? = l[j]? ∨
    (∃ it, l[j]? = some it ∧ p it = true ∧
      (updateFirst l p f)[j]? = some (f it)) := by
  induction l generalizing j with
  | nil => left; rfl
  | cons i rest ih =>
    by_cases hp : p i
    · cases j with
      | zero => right; exact ⟨i, by simp, hp, by simp [updateFirst, hp]⟩
      | succ k => left; simp [updateFirst, hp]
    · cases j with
      | zero => left; simp [updateFirst, hp]
      | succ k =>
        rcases ih k with h | ⟨it, h1, h2, h3⟩
        · left; simpa [updateFirst, hp] using h
        · right
          exact ⟨it, by simpa using h1, h2, by simpa [updateFirst, hp] using h3⟩

/-- C10: an update_item call on an existing item keeps the counter and
the cache directory unchanged, preserves every item's id, photo and
photo_url at every position of the collection, and leaves every item
whose id does not equal the parsed requested id entirely unchanged (so
the photo cannot be altered through this endpoint and no other item is
touched). -/
theorem C10_update_preserves_frame (st : Store) (idStr : String)
    (req : UpdateReq) (item : Item)
    (hfind : findItem st.inventory idStr = some item) :
    (putInventoryId st idStr req).1.nextId = st.nextId ∧
    (putInventoryId st idStr req).1.cache = st.cache ∧
    (putInventoryId st idStr req).1.inventory.length = st.inventory.length ∧
    (∀ j : Nat,
      ((putInventoryId st idStr req).1.inventory[j]?.map Item.id =
        st.inventory[j]?.map Item.id) ∧
      ((putInventoryId st idStr req).1.inventory[j]?.map Item.photo =
        st.inventory[j]?.map Item.photo) ∧
      ((putInventoryId st idStr req).1.inventory[j]?.map Item.photo_url =
        st.inventory[j]?.map Item.photo_url) ∧
      (∀ it, st.inventory[j]? = some it →
        (parseIntJS idStr == some (Int.ofNat it.id)) = false →
        (putInventoryId st idStr req).1.inventory[j]? = some it)) := by
  have hfind' : st.inventory.find?
      (fun i => parseIntJS idStr == some (Int.ofNat i.id)) = some item := hfind
  have hred : (putInventoryId st idStr req).1 =
      { inventory := updateFirst st.inventory
          (fun i => parseIntJS idStr == some (Int.ofNat i.id)) (applyUpdate req),
        nextId := st.nextId, cache := st.cache } := by
    simp only [putInventoryId, findItem, hfind']
  refine ⟨by rw [hred], by rw [hred], ?_, ?_⟩
  · rw [hred]
    exact updateFirst_length _ _ _
  · intro j
    rw [hred]
    rcases updateFirst_getElem? st.inventory
        (fun i => parseIntJS idStr == some (Int.ofNat i.id))
        (applyUpdate req) j with h | ⟨it, h1, h2, h3⟩
    · refine ⟨by rw [h], by rw [h], by rw [h], ?_⟩
      intro it hit _
      rw [h, hit]
    · refine ⟨?_, ?_, ?_, ?_⟩
      · rw [h1, h3]; rfl
      · rw [h1, h3]; rfl
      · rw [h1, h3]; rfl
      · intro it' hit' hfalse
        rw [h1] at hit'
        cases hit'
        rw [h2] at hfalse
        cases hfalse

/-- Witness for C10: updating item 1 in a two-item store leaves the
non-matching item 2 unchanged. -/
theorem C10_update_preserves_frame_witness :
    (putInventoryId
      { inventory := [{ id := 1, inventory_name := "a", description := "",
                        photo := none, photo_url := none },
                      { id := 2, inventory_name := "b", description := "",
                        photo := none, photo_url := none }],
        nextId := 3, cache := [] }
      "1" { inventory_name := some "N", description := none }).1.inventory[1]? =
      some { id := 2, inventory_name := "b", description := "",
             photo := none, photo_url := none } :=
  ((C10_update_preserves_frame
    { inventory := [{ id := 1, inventory_name := "a", description := "",
                      photo := none, photo_url := none },
                    { id := 2, inventory_name := "b", description := "",
                      photo := none, photo_url := none }],
      nextId := 3, cache := [] }
    "1" { inventory_name := some "N", description := none }
    { id := 1, inventory_name := "a", description := "",
      photo := none, photo_url := none }
    (by decide)).2.2.2 1).2.2.2
    { id := 2, inventory_name := "b", description := "",
      photo := none, photo_url := none } rfl (by decide)

end Inventory
